import Mathlib

/- Shallow embedding of the transport layer of pytube-masked
(src/pytube/request.py together with src/pytube/exceptions.py).
Byte strings and text are both modelled as lists of characters; the network
(urlopen) is an explicit oracle, so every network interaction is visible in
the results. -/

/-- Byte strings and text are both modelled as lists of characters. -/
abbrev Chars := List Char

/-- Model of the substring test (Python's `in` operator on strings). -/
def containsSub (pat : Chars) : Chars → Bool
  | [] => pat.isPrefixOf []
  | c :: cs => pat.isPrefixOf (c :: cs) || containsSub pat cs

/-- The pattern checked by `front_url.lower().startswith("http")`
(request.py line 105). -/
def httpL : Chars := ['h', 't', 't', 'p']

/-- Model of `u.lower().startswith("http")`, the URL validation performed by
`_execute_request` before opening a connection. -/
def isHttp (u : Chars) : Bool :=
  httpL.isPrefixOf (u.map Char.toLower)

/-- Characters allowed in a URL scheme (Python `urllib.parse.scheme_chars`). -/
def schemeCharOK (c : Char) : Bool :=
  c.isAlpha || c.isDigit || c = '+' || c = '-' || c = '.'

/-- Split a string at its first colon, returning the pieces before and after
it, or `none` when there is no colon. -/
def splitAtColon : Chars → Option (Chars × Chars)
  | [] => none
  | c :: rest =>
    if c = ':' then some ([], rest)
    else
      match splitAtColon rest with
      | none => none
      | some (a, b) => some (c :: a, b)

/-- Scheme extraction of `urllib.parse.urlsplit`: a nonempty run of scheme
characters starting with a letter, before the first colon, is split off and
lowercased; otherwise the URL is left whole with no scheme. -/
def splitScheme (u : Chars) : Chars × Chars :=
  match splitAtColon u with
  | none => ([], u)
  | some ([], _) => ([], u)
  | some (c :: pre, rest) =>
    if c.isAlpha && (c :: pre).all schemeCharOK then ((c :: pre).map Char.toLower, rest)
    else ([], u)

/-- Take characters until one of the stop characters, returning both pieces. -/
def takeUntilStop (stops : Chars) : Chars → Chars × Chars
  | [] => ([], [])
  | c :: cs =>
    if stops.contains c then ([], c :: cs)
    else
      let p := takeUntilStop stops cs
      (c :: p.1, p.2)

/-- Netloc extraction of `urlsplit`: after a leading `//`, up to the next
`/`, `?` or `#`. -/
def splitNetloc : Chars → Chars × Chars
  | '/' :: '/' :: rest => takeUntilStop ['/', '?', '#'] rest
  | u => ([], u)

/-- Split at the first occurrence of a character; when the character is
absent the second piece is empty, which has the same downstream effect as
Python's conditional `str.split(c, 1)` in `urlsplit`. -/
def splitAtFirst (ch : Char) : Chars → Chars × Chars
  | [] => ([], [])
  | c :: cs =>
    if c = ch then ([], cs)
    else
      let p := splitAtFirst ch cs
      (c :: p.1, p.2)

/-- Result of `urllib.parse.urlsplit` (the fragment is dropped, as the code
under verification never uses it). -/
structure SplitResult where
  scheme : Chars
  netloc : Chars
  path : Chars
  query : Chars
  deriving DecidableEq

/-- Model of `urllib.parse.urlsplit`: scheme, then netloc after `//`, then
the fragment is cut at `#`, then the query follows the first `?`. -/
def urlsplit (u : Chars) : SplitResult :=
  let s := splitScheme u
  let n := splitNetloc s.2
  let f := splitAtFirst '#' n.2
  let q := splitAtFirst '?' f.1
  ⟨s.1, n.1, q.1, q.2⟩

/-- Python dict insertion: replace the value at an existing key in place,
else append (`d[k] = v`, and the per-pair step of `dict.update`). -/
def dictInsert (k v : Chars) : List (Chars × Chars) → List (Chars × Chars)
  | [] => [(k, v)]
  | (k', v') :: rest => if k = k' then (k, v) :: rest else (k', v') :: dictInsert k v rest

/-- Python dict lookup (`d[k]`): the first occurrence of the key. Maps built
with `dictInsert` hold at most one occurrence per key. -/
def dlookup (k : Chars) : List (Chars × Chars) → Option Chars
  | [] => none
  | (k', v) :: rest => if k = k' then some v else dlookup k rest

/-- Python `dict(pairs)`: later pairs overwrite earlier values in place. -/
def dictOfPairs (ps : List (Chars × Chars)) : List (Chars × Chars) :=
  ps.foldl (fun acc p => dictInsert p.1 p.2 acc) []

/-- Hexadecimal value of a character, if any (used for percent-decoding). -/
def hexVal (c : Char) : Option Nat :=
  if '0' ≤ c ∧ c ≤ '9' then some (c.toNat - 48)
  else if 'A' ≤ c ∧ c ≤ 'F' then some (c.toNat - 55)
  else if 'a' ≤ c ∧ c ≤ 'f' then some (c.toNat - 87)
  else none

/-- Model of `urllib.parse.unquote_plus` at the byte level: `+` becomes a
space and `%XX` becomes the byte `XX`; malformed escapes pass through. -/
def unquotePlus : Chars → Chars
  | [] => []
  | '+' :: cs => ' ' :: unquotePlus cs
  | '%' :: a :: b :: cs =>
    match hexVal a, hexVal b with
    | some x, some y => Char.ofNat (16 * x + y) :: unquotePlus cs
    | _, _ => '%' :: unquotePlus (a :: b :: cs)
  | c :: cs => c :: unquotePlus cs

/-- UTF-8 bytes of a character (used for percent-encoding). -/
def utf8Bytes (c : Char) : List Nat :=
  let n := c.toNat
  if n < 128 then [n]
  else if n < 2048 then [192 + n / 64, 128 + n % 64]
  else if n < 65536 then [224 + n / 4096, 128 + n / 64 % 64, 128 + n % 64]
  else [240 + n / 262144, 128 + n / 4096 % 64, 128 + n / 64 % 64, 128 + n % 64]

/-- Uppercase hexadecimal digit of a value below 16. -/
def hexDigit (n : Nat) : Char :=
  if n < 10 then Char.ofNat (48 + n) else Char.ofNat (55 + n)

/-- Percent-escape of one byte, uppercase as Python produces it. -/
def percentEncodeByte (b : Nat) : Chars :=
  ['%', hexDigit (b / 16), hexDigit (b % 16)]

/-- Model of `urllib.parse.quote_plus`: keep unreserved characters, encode a
space as `+`, percent-encode everything else byte by byte. -/
def quotePlus (s : Chars) : Chars :=
  (s.map (fun c =>
    if c.isAlphanum || c = '_' || c = '.' || c = '-' || c = '~' then [c]
    else if c = ' ' then ['+']
    else ((utf8Bytes c).map percentEncodeByte).flatten)).flatten

/-- Split on every occurrence of a character (Python `str.split(ch)`). -/
def splitOnChar (ch : Char) : Chars → List Chars
  | [] => [[]]
  | c :: cs =>
    if c = ch then [] :: splitOnChar ch cs
    else
      match splitOnChar ch cs with
      | [] => [[c]]
      | l :: ls => (c :: l) :: ls

/-- Model of `urllib.parse.parse_qsl` with default arguments: split the query
on `&`, keep only pieces that contain `=` with a nonempty value, unquoting
name and value. -/
def parse_qsl (qs : Chars) : List (Chars × Chars) :=
  (splitOnChar '&' qs).filterMap (fun nv =>
    if nv = [] then none
    else
      let p := splitAtFirst '=' nv
      if p.2 = [] then none else some (unquotePlus p.1, unquotePlus p.2))

/-- Model of `urllib.parse.urlencode` applied to a dict's items. -/
def urlencode (ps : List (Chars × Chars)) : Chars :=
  List.intercalate ['&'] (ps.map (fun p => quotePlus p.1 ++ '=' :: quotePlus p.2))

/-- URL rewriting shared by `seq_stream` (request.py lines 172-181, 199-201)
and `seq_filesize` (lines 286-294): rebuild the URL as `scheme://netloc/path?`
followed by the re-encoded query with the `sq` parameter set. -/
def buildSeqUrl (u : Chars) (sq : Nat) : Chars :=
  let s := urlsplit u
  let querys := dictInsert ("sq".toList) ((Nat.repr sq).toList) (dictOfPairs (parse_qsl s.query))
  s.scheme ++ ':' :: '/' :: '/' :: (s.netloc ++ '/' :: (s.path ++ '?' :: urlencode querys))

/-- Exceptions the transport code raises or catches: the library's own
`MaxRetriesExceeded` and `RegexMatchError` (exceptions.py), plus the standard
exceptions `request.py` distinguishes: `ValueError("Invalid URL")`, a
`URLError` whose reason is a socket timeout, any other `URLError`, an
`HTTPError` carrying a status code, `http.client.IncompleteRead`,
`KeyError`/`ValueError` while reading headers, and the
`UnboundLocalError` raised by `seq_stream` when `segment_count` was never
assigned. -/
inductive PyError where
  | invalidURL
  | maxRetriesExceeded
  | regexMatchError
  | nameError
  | urlTimeoutError
  | incompleteReadError
  | urlError
  | httpError (code : Nat)
  | keyError
  | valueError
  deriving DecidableEq

/-- An open urllib response: its body bytes and its raw headers. -/
structure Response where
  body : Chars
  headers : List (Chars × Chars)
  deriving DecidableEq

/-- An outgoing `urllib.request.Request`: target URL, optional method
override, merged headers, optional already-encoded body. -/
structure PyRequest where
  url : Chars
  method : Option Chars
  headers : List (Chars × Chars)
  data : Option Chars
  deriving DecidableEq

/-- Modelled from the spec: `make_fronted_url` lives in `pytube/helpers.py`,
which is not among the sources under verification. Per spec section 4.3 the
Request Executor computes "the fronted target and the true logical host", and
per section 4.1 fronting applies to the media-serving domain family
(googlevideo.com), whose logical host is carried in a Host header override,
while every other URL passes through unchanged with no Host override; the
fronted target keeps the URL text itself, since redirection happens at
address resolution. -/
def make_fronted_url (url : Chars) : Chars × Option Chars :=
  if containsSub ("googlevideo.com".toList) url then (url, some (urlsplit url).netloc)
  else (url, none)

/-- Base headers of `_execute_request` (lines 96-100) with the Host override
applied when fronting supplies one, and the caller's headers merged over them
(`base_headers.update(headers)`). -/
def mergedHeaders (host : Option Chars) (headers : List (Chars × Chars)) :
    List (Chars × Chars) :=
  let base := [("User-Agent".toList, "Mozilla/5.0".toList),
               ("accept-language".toList, "en-US,en".toList)]
  let based := match host with
    | some h => dictInsert ("Host".toList) h base
    | none => base
  headers.foldl (fun acc p => dictInsert p.1 p.2 acc) based

/-- The `urllib.request.Request` built by `_execute_request` (lines 94-107):
fronted URL, merged headers, the caller's method and pre-encoded data. -/
def builtRequest (url : Chars) (method : Option Chars) (headers : List (Chars × Chars))
    (data : Option Chars) : PyRequest :=
  let fh := make_fronted_url url
  ⟨fh.1, method, mergedHeaders fh.2 headers, data⟩

/-- Model of `_execute_request` (request.py lines 87-112). The network is the
oracle `netk`: applying it models the `urlopen` call, and an `.error` result
models that call raising (`URLError` variants, `HTTPError`,
`IncompleteRead`). The second component lists the requests actually handed to
`urlopen`, so its length counts network calls. When the fronted URL does not
start with "http" after lowercasing, the function raises
`ValueError("Invalid URL")` before any network call (lines 105-109). -/
def _execute_request (netk : PyRequest → Except PyError Response) (url : Chars)
    (method : Option Chars) (headers : List (Chars × Chars)) (data : Option Chars) :
    Except PyError Response × List PyRequest :=
  let req := builtRequest url method headers data
  if isHttp req.url then (netk req, [req]) else (.error .invalidURL, [])

/-- Line 233 of request.py: the URL actually requested by `stream`, with the
`range` query parameter appended when resuming from a nonzero offset. -/
def streamRequestUrl (url : Chars) (startBytePos : Nat) : Chars :=
  url ++ (if startBytePos = 0 then []
          else "&range=".toList ++ (Nat.repr startBytePos).toList ++ "-99999999999".toList)

/-- The one GET request issued by every attempt of `stream` (lines 232-236). -/
def streamReq (url : Chars) (startBytePos : Nat) : PyRequest :=
  builtRequest (streamRequestUrl url startBytePos) (some "GET".toList) [] none

/-- Which caught exceptions the retry loop of `stream` treats as transient:
exactly a `URLError` whose reason is a socket timeout (lines 237-243) and an
`http.client.IncompleteRead` (lines 244-246). An `HTTPError` is a `URLError`
whose reason is the status message, never a socket timeout, so it is
re-raised by line 243. -/
def PyError.isTransient : PyError → Bool
  | .urlTimeoutError => true
  | .incompleteReadError => true
  | _ => false

/-- True when an attempt outcome is one the loop retries silently. -/
def attemptTransient (x : Except PyError Response) : Bool :=
  match x with
  | .error e => e.isTransient
  | .ok _ => false

/-- Outcome of the retry loop of `stream` (lines 222-250): a successful
response, the `MaxRetriesExceeded` raise, or an uncaught exception
propagating to the caller. Each constructor records the requests that were
handed to `urlopen`. -/
inductive LoopResult where
  | success (r : Response) (issued : List PyRequest)
  | maxRetriesExceeded (issued : List PyRequest)
  | propagated (e : PyError) (issued : List PyRequest)
  deriving DecidableEq

/-- Requests handed to `urlopen` during the loop. -/
def LoopResult.requests : LoopResult → List PyRequest
  | .success _ l => l
  | .maxRetriesExceeded l => l
  | .propagated _ l => l

/-- The inner `while True` retry loop of `stream` (lines 225-250). The
`budget` argument is `1 + max_retries - tries`; when it reaches zero the
`tries >= 1 + max_retries` check raises `MaxRetriesExceeded`. The network
oracle is indexed by the attempt number. -/
def attemptLoop (net : Nat → PyRequest → Except PyError Response) (url : Chars) :
    Nat → List PyRequest → LoopResult
  | 0, done => .maxRetriesExceeded done
  | b + 1, done =>
    match _execute_request (net done.length) url (some "GET".toList) [] none with
    | (.ok r, is) => .success r (done ++ is)
    | (.error e, is) =>
      if e.isTransient then attemptLoop net url b (done ++ is)
      else .propagated e (done ++ is)

/-- One round of the request loop of `stream` (lines 220-250) for a given
URL, start offset and retry budget. Under the hypotheses of the claims below
this round is the whole behavior of the call: a raise exits the generator. -/
def stream_request (net : Nat → PyRequest → Except PyError Response) (url : Chars)
    (startBytePos maxRetries : Nat) : LoopResult :=
  attemptLoop net (streamRequestUrl url startBytePos) (1 + maxRetries) []

/-- Model of `get` (lines 115-129): a single `_execute_request` with the
caller's extra headers and no method override, reading the body. No
exception is caught. -/
def get_req (net : Nat → PyRequest → Except PyError Response) (url : Chars)
    (extraHeaders : List (Chars × Chars)) : Except PyError Chars × List PyRequest :=
  match _execute_request (net 0) url none extraHeaders none with
  | (.ok r, is) => (.ok r.body, is)
  | (.error e, is) => (.error e, is)

/-- Line 153 of request.py: `extra_headers.update({"Content-Type":
"application/json"})`. Python mutates the caller's dict in place; the model
returns the state of that dict after the call. -/
def post_headers_after (extraHeaders : List (Chars × Chars)) : List (Chars × Chars) :=
  dictInsert ("Content-Type".toList) ("application/json".toList) extraHeaders

/-- Model of `post` (lines 132-160): forces the JSON content type into the
caller's headers, then performs a single `_execute_request` with the encoded
data. No exception is caught. -/
def post_req (net : Nat → PyRequest → Except PyError Response) (url : Chars)
    (extraHeaders : List (Chars × Chars)) (data : Option Chars) :
    Except PyError Chars × List PyRequest :=
  match _execute_request (net 0) url none (post_headers_after extraHeaders) data with
  | (.ok r, is) => (.ok r.body, is)
  | (.error e, is) => (.error e, is)

/-- Model of `head` (lines 330-340): a single HEAD `_execute_request`, with
the response headers keyed by their lowercased names. -/
def head_req (netk : PyRequest → Except PyError Response) (url : Chars) :
    Except PyError (List (Chars × Chars)) × List PyRequest :=
  match _execute_request netk url (some "HEAD".toList) [] none with
  | (.ok r, is) =>
    (.ok (dictOfPairs (r.headers.map (fun p => (p.1.map Char.toLower, p.2)))), is)
  | (.error e, is) => (.error e, is)

/-- Python `int()` on a Content-Length value: a nonempty digit string. -/
def parseNat (s : Chars) : Option Nat :=
  if s ≠ [] ∧ s.all Char.isDigit then
    some (s.foldl (fun acc c => acc * 10 + (c.toNat - 48)) 0)
  else none

/-- The expression `int(head(url)["content-length"])` shared by `filesize`
(line 275) and the summation loop of `seq_filesize` (line 325): a missing
header raises `KeyError`, a non-numeric one `ValueError`. -/
def headContentLength (netk : PyRequest → Except PyError Response) (url : Chars) :
    Except PyError Nat × List PyRequest :=
  match head_req netk url with
  | (.error e, is) => (.error e, is)
  | (.ok hdrs, is) =>
    match dlookup ("content-length".toList) hdrs with
    | none => (.error .keyError, is)
    | some v =>
      match parseNat v with
      | none => (.error .valueError, is)
      | some n => (.ok n, is)

/-- Model of `filesize` (lines 268-275). -/
def filesize_req (net : Nat → PyRequest → Except PyError Response) (url : Chars) :
    Except PyError Nat × List PyRequest :=
  headContentLength (net 0) url

/-- Python `bytes.split(b"\r\n")`: split the body on every CRLF. -/
def splitCRLF : Chars → List Chars
  | [] => [[]]
  | '\r' :: '\n' :: rest => [] :: splitCRLF rest
  | c :: rest =>
    match splitCRLF rest with
    | [] => [[c]]
    | l :: ls => (c :: l) :: ls

/-- Longest run of leading decimal digits. -/
def takeDigits : Chars → Chars
  | [] => []
  | c :: cs => if c.isDigit then c :: takeDigits cs else []

/-- Numeric value of a digit string. -/
def digitsVal (ds : Chars) : Nat :=
  ds.foldl (fun acc c => acc * 10 + (c.toNat - 48)) 0

/-- Model of `re.search(b"Segment-Count: (\\d+)", line)` followed by
`int(match.group(1))`: scan for the leftmost occurrence of the literal
`Segment-Count: ` followed by at least one digit; the group is the maximal
digit run after the literal. The same regex drives `seq_stream` (line 190)
and, through the `regex_search` helper, `seq_filesize` (lines 306-311). -/
def searchSegCountLine : Chars → Option Nat
  | [] => none
  | c :: cs =>
    let pat := "Segment-Count: ".toList
    if pat.isPrefixOf (c :: cs) then
      match (c :: cs).drop pat.length with
      | d :: ds => if d.isDigit then some (digitsVal (takeDigits (d :: ds)))
                   else searchSegCountLine cs
      | [] => searchSegCountLine cs
    else searchSegCountLine cs

/-- The line scan of `seq_stream` (lines 189-194): every matching line
overwrites `segment_count`, so the last match wins; `none` when no line
matched and the variable was never assigned. -/
def findSegmentCount (lines : List Chars) : Option Nat :=
  lines.foldl (fun acc line =>
    match searchSegCountLine line with
    | some n => some n
    | none => acc) none

/-- The line scan of `seq_filesize` (lines 304-313): `segment_count` starts
at 0 and every successful `regex_search` overwrites it; failures are caught
and ignored. -/
def segCountOf (body : Chars) : Nat :=
  (splitCRLF body).foldl (fun acc line =>
    match searchSegCountLine line with
    | some n => n
    | none => acc) 0

/-- Outcome of the `seq_stream` generator: the chunks it yielded, and
whether it then finished normally or raised `UnboundLocalError` reading the
never-assigned `segment_count` (line 198). -/
inductive SeqStreamResult where
  | ok (chunks : List Chars)
  | nameError (chunks : List Chars)
  deriving DecidableEq

/-- True when the generator finished without raising. -/
def SeqStreamResult.isOk : SeqStreamResult → Bool
  | .ok _ => true
  | .nameError _ => false

/-- Model of `seq_stream` (request.py lines 163-205). The environment
`segStream i` is the chunk sequence produced by the inner `stream` call for
the URL with `sq = i` (the per-URL network behavior, abstracted per segment
index). The generator yields the chunks of segment 0 while accumulating them
into `segment_data`, scans the accumulated bytes for the segment count, and
then yields the chunks of segments 1 through that count in order. When no
line matched, `segment_count` was never assigned and line 198 raises
`UnboundLocalError` after segment 0 was already yielded. -/
def seq_stream (segStream : Nat → List Chars) : SeqStreamResult :=
  let seg0 := segStream 0
  match findSegmentCount (splitCRLF seg0.flatten) with
  | none => .nameError seg0
  | some n => .ok (seg0 ++ ((List.range n).map (fun i => segStream (i + 1))).flatten)

/-- The summation loop of `seq_filesize` (lines 318-326): HEAD requests for
segments `first, first+1, ...` while `remaining` counts down, adding each
Content-Length to the accumulator; any exception propagates. -/
def headSum (net : Nat → PyRequest → Except PyError Response) (url : Chars) :
    Nat → Nat → List PyRequest → Nat → Except PyError Nat × List PyRequest
  | _, acc, issued, 0 => (.ok acc, issued)
  | first, acc, issued, rem + 1 =>
    match headContentLength (net first) (buildSeqUrl url first) with
    | (.error e, is) => (.error e, issued ++ is)
    | (.ok cl, is) => headSum net url (first + 1) (acc + cl) (issued ++ is) rem

/-- Model of `seq_filesize` (request.py lines 278-327): fetch segment 0 with
`sq=0`, add the byte length of its body, parse the segment count out of the
body (0 when no line matched), raise `RegexMatchError` when that count is 0,
and otherwise add a HEAD-derived Content-Length for each segment 1..count. -/
def seq_filesize_req (net : Nat → PyRequest → Except PyError Response) (url : Chars) :
    Except PyError Nat × List PyRequest :=
  match _execute_request (net 0) (buildSeqUrl url 0) (some "GET".toList) [] none with
  | (.error e, is) => (.error e, is)
  | (.ok r, is) =>
    let cnt := segCountOf r.body
    if cnt = 0 then (.error .regexMatchError, is)
    else headSum net url 1 r.body.length is cnt

/-- The hardcoded fronting resolver (request.py line 23): its hostname and
its fixed IP address. -/
def _dns_resolver : Chars × Chars :=
  ("google-public-dns-a.google.com".toList, "216.239.36.36".toList)

/-- One name/data entry of the DoH JSON answer list. -/
structure DnsEntry where
  name : Chars
  data : Chars
  deriving DecidableEq

/-- The parsed DoH JSON payload: the names of the Question entries and the
Answer entries. -/
structure DnsAnswer where
  question : List Chars
  answer : List DnsEntry
  deriving DecidableEq

/-- One pass of the inner `for` loop of `_read_ip_from_dns_answer` (lines
33-36), starting from the given working name and search flag: every entry
whose name equals the current working value replaces it with that entry's
data and sets the flag, and the scan continues through the rest of the
list. -/
def dnsPass (answers : List DnsEntry) (ip : Chars) (search : Bool) : Chars × Bool :=
  match answers with
  | [] => (ip, search)
  | a :: rest =>
    if ip = a.name then dnsPass rest a.data true else dnsPass rest ip search

/-- The working name after `k` passes of the loop. -/
def dnsPassIter (answers : List DnsEntry) (ip : Chars) : Nat → Chars
  | 0 => ip
  | k + 1 => (dnsPass answers (dnsPassIter answers ip k) false).1

/-- The `while search` loop of `_read_ip_from_dns_answer` (lines 29-38),
indexed by fuel: the Python loop has none, so the code terminates with value
`v` exactly when some fuel returns `some v`, and diverges exactly when every
fuel returns `none`. -/
def dnsLoop (answers : List DnsEntry) : Nat → Chars → Option Chars
  | 0, _ => none
  | f + 1, ip =>
    let p := dnsPass answers ip false
    if p.2 then dnsLoop answers f p.1 else some p.1

/-- Model of `_read_ip_from_dns_answer` (request.py lines 27-38): start from
`json_data["Question"][0]["name"]` and follow the answer chain; `none` also
covers the `IndexError` on an empty Question list. -/
def _read_ip_from_dns_answer (j : DnsAnswer) (fuel : Nat) : Option Chars :=
  match j.question with
  | [] => none
  | q0 :: _ => dnsLoop j.answer fuel q0

/-- The chain-following loop runs forever on this answer: no fuel suffices. -/
def DnsDiverges (j : DnsAnswer) : Prop :=
  ∀ fuel, _read_ip_from_dns_answer j fuel = none

/-- One entry of a `socket.getaddrinfo` result: family, type, proto,
canonical name and the socket address (host, port). -/
structure AddrInfo where
  family : Nat
  typ : Nat
  proto : Nat
  canonname : Chars
  sockaddr : Chars × Nat
  deriving DecidableEq

/-- Model of `_patched_getaddrinfo` (request.py lines 66-82). Arguments:
`get_dns_ip` is the DoH resolver (a network effect, passed as an oracle),
`split_redirector_host` models the `split_redirector_url(url)[0]` helper
(helpers.py, not among the sources), `res` is the platform resolver's
answer, and `lastUrl` is `last_url.get(threading.get_ident())` — the
correlated in-flight URL of the current thread. `none` models the
`IndexError` when the platform answer is empty on a rewritten branch. A
missing or empty correlated URL passes the platform answer through. -/
def _patched_getaddrinfo (get_dns_ip : Chars → Chars)
    (split_redirector_host : Chars → Chars) (res : List AddrInfo)
    (lastUrl : Option Chars) : Option (List AddrInfo) :=
  match lastUrl with
  | none => some res
  | some url =>
    if url = [] then some res
    else if containsSub ("/resolve".toList) url then
      match res with
      | [] => none
      | r0 :: _ => some [{ r0 with sockaddr := (_dns_resolver.2, 443) }]
    else if containsSub ("googlevideo.com".toList) url then
      match res with
      | [] => none
      | r0 :: _ =>
        some [{ r0 with sockaddr := (get_dns_ip (split_redirector_host url), 443) }]
    else some res

/-- The HEAD request issued for segment `i` by the summation loop of
`seq_filesize` (line 325, through `head`). -/
def seqHeadReq (url : Chars) (i : Nat) : PyRequest :=
  builtRequest (buildSeqUrl url i) (some "HEAD".toList) [] none


deriving instance DecidableEq for Except

theorem make_fronted_url_fst (u : Chars) : (make_fronted_url u).1 = u := by
  unfold make_fronted_url
  split <;> rfl

theorem builtRequest_url (u : Chars) (m : Option Chars) (hs : List (Chars × Chars))
    (d : Option Chars) : (builtRequest u m hs d).url = u := by
  unfold builtRequest
  simp [make_fronted_url_fst]

theorem execute_request_valid (netk : PyRequest → Except PyError Response) (u : Chars)
    (m : Option Chars) (hs : List (Chars × Chars)) (d : Option Chars)
    (h : isHttp u = true) :
    _execute_request netk u m hs d =
      (netk (builtRequest u m hs d), [builtRequest u m hs d]) := by
  simp [_execute_request, builtRequest_url, h]

theorem execute_request_invalid (netk : PyRequest → Except PyError Response) (u : Chars)
    (m : Option Chars) (hs : List (Chars × Chars)) (d : Option Chars)
    (h : isHttp u = false) :
    _execute_request netk u m hs d = (.error .invalidURL, []) := by
  simp [_execute_request, builtRequest_url, h]

theorem isPrefixOf_append_left (p a b : Chars) (h : p.isPrefixOf a = true) :
    p.isPrefixOf (a ++ b) = true := by
  rw [List.isPrefixOf_iff_prefix] at h ⊢
  exact h.trans (List.prefix_append a b)

theorem httpPrefixAppendBlocker (a t : Chars) (c : Char)
    (h1 : ('h' == c) = false) (h2 : ('t' == c) = false) (h3 : ('p' == c) = false) :
    httpL.isPrefixOf (a ++ c :: t) = httpL.isPrefixOf a := by
  rcases a with _ | ⟨a1, _ | ⟨a2, _ | ⟨a3, _ | ⟨a4, a5⟩⟩⟩⟩ <;>
    simp [httpL, List.isPrefixOf, h1, h2, h3]

theorem isHttp_append_blocker (u w : Chars) (c : Char)
    (h1 : ('h' == Char.toLower c) = false) (h2 : ('t' == Char.toLower c) = false)
    (h3 : ('p' == Char.toLower c) = false) :
    isHttp (u ++ c :: w) = isHttp u := by
  unfold isHttp
  rw [List.map_append, List.map_cons, httpPrefixAppendBlocker _ _ _ h1 h2 h3]

theorem isHttp_streamRequestUrl (url : Chars) (s : Nat) :
    isHttp (streamRequestUrl url s) = isHttp url := by
  unfold streamRequestUrl
  by_cases hs : s = 0
  · simp [hs]
  · rw [if_neg hs]
    have h : "&range=".toList = '&' :: "range=".toList := rfl
    rw [h]
    simp only [List.cons_append]
    exact isHttp_append_blocker url _ '&' (by decide) (by decide) (by decide)

theorem attemptLoop_invalid (net : Nat → PyRequest → Except PyError Response)
    (u : Chars) (b : Nat) (done : List PyRequest) (h : isHttp u = false) :
    attemptLoop net u (b + 1) done = .propagated .invalidURL done := by
  simp only [attemptLoop]
  rw [execute_request_invalid _ _ _ _ _ h]
  simp [PyError.isTransient]

theorem attemptLoop_timeout (net : Nat → PyRequest → Except PyError Response)
    (u : Chars) (hu : isHttp u = true)
    (ht : ∀ k r, net k r = .error .urlTimeoutError) :
    ∀ (b : Nat) (done : List PyRequest),
      attemptLoop net u b done =
        .maxRetriesExceeded
          (done ++ List.replicate b (builtRequest u (some "GET".toList) [] none)) := by
  intro b
  induction b with
  | zero => intro done; simp [attemptLoop]
  | succ m ih =>
    intro done
    simp only [attemptLoop]
    rw [execute_request_valid _ _ _ _ _ hu, ht]
    simp only [PyError.isTransient, if_pos]
    rw [ih]
    simp [List.replicate_succ, List.append_assoc]

/-- Claim C1: for every url and timeout, if every attempt of
`stream(url, timeout, maxRetries = n)` fails with a connection timeout, then
`stream` performs exactly `n + 1` request attempts and then raises
`MaxRetriesExceeded`; in particular with `maxRetries = 2` it performs exactly
3 attempts before failing. The issued-request trace records one GET per
attempt; the timeout parameter is absorbed by the network oracle. -/
theorem stream_retry_exhaustion (net : Nat → PyRequest → Except PyError Response)
    (url : Chars) (s n : Nat) (hvalid : isHttp url = true)
    (ht : ∀ k r, net k r = .error .urlTimeoutError) :
    stream_request net url s n =
      .maxRetriesExceeded (List.replicate (n + 1) (streamReq url s)) ∧
    (stream_request net url s n).requests.length = n + 1 ∧
    (stream_request net url s 2).requests.length = 3 := by
  have hu : isHttp (streamRequestUrl url s) = true := by
    rw [isHttp_streamRequestUrl]; exact hvalid
  have key : ∀ m, stream_request net url s m =
      .maxRetriesExceeded (List.replicate (m + 1) (streamReq url s)) := by
    intro m
    unfold stream_request streamReq
    rw [attemptLoop_timeout net _ hu ht (1 + m) []]
    simp [Nat.add_comm]
  refine ⟨key n, ?_, ?_⟩
  · rw [key n]; simp [LoopResult.requests]
  · rw [key 2]; simp [LoopResult.requests]

/-- Witness for C1: a concrete URL, an oracle that always times out, and
retry budget 2 give exactly 3 attempts and the `MaxRetriesExceeded` raise. -/
theorem stream_retry_exhaustion_witness :
    stream_request (fun _ _ => .error .urlTimeoutError) ("http://a".toList) 0 2 =
      .maxRetriesExceeded (List.replicate 3 (streamReq ("http://a".toList) 0)) := by
  have h := stream_retry_exhaustion (fun _ _ => .error .urlTimeoutError)
    ("http://a".toList) 0 2 (by decide) (fun _ _ => rfl)
  exact h.1


theorem execute_request_requests (netk : PyRequest → Except PyError Response) (u : Chars)
    (m : Option Chars) (hs : List (Chars × Chars)) (d : Option Chars) :
    ∀ q ∈ (_execute_request netk u m hs d).2, q = builtRequest u m hs d := by
  intro q hq
  by_cases h : isHttp u = true
  · rw [execute_request_valid _ _ _ _ _ h] at hq
    simpa using hq
  · rw [execute_request_invalid _ _ _ _ _ (by simpa using h)] at hq
    simp at hq

theorem attemptLoop_succ_ok (net : Nat → PyRequest → Except PyError Response)
    (u : Chars) (b : Nat) (done : List PyRequest) (r : Response) (is : List PyRequest)
    (h : _execute_request (net done.length) u (some "GET".toList) [] none = (.ok r, is)) :
    attemptLoop net u (b + 1) done = .success r (done ++ is) := by
  simp only [attemptLoop]
  rw [h]

theorem attemptLoop_succ_error (net : Nat → PyRequest → Except PyError Response)
    (u : Chars) (b : Nat) (done : List PyRequest) (e : PyError) (is : List PyRequest)
    (h : _execute_request (net done.length) u (some "GET".toList) [] none = (.error e, is)) :
    attemptLoop net u (b + 1) done =
      if e.isTransient then attemptLoop net u b (done ++ is)
      else .propagated e (done ++ is) := by
  simp only [attemptLoop]
  rw [h]

theorem attemptLoop_requests_le (net : Nat → PyRequest → Except PyError Response)
    (u : Chars) :
    ∀ (b : Nat) (done : List PyRequest),
      done.length ≤ (attemptLoop net u b done).requests.length := by
  intro b
  induction b with
  | zero => intro done; simp [attemptLoop, LoopResult.requests]
  | succ m ih =>
    intro done
    rcases hexec : _execute_request (net done.length) u (some "GET".toList) [] none
      with ⟨res, is⟩
    cases res with
    | ok r =>
      rw [attemptLoop_succ_ok net u m done r is hexec]
      simp [LoopResult.requests]
    | error e =>
      rw [attemptLoop_succ_error net u m done e is hexec]
      by_cases he : e.isTransient = true
      · rw [if_pos he]
        calc done.length ≤ (done ++ is).length := by simp
          _ ≤ _ := ih (done ++ is)
      · rw [if_neg he]
        simp [LoopResult.requests]

theorem attemptLoop_skip_transient (net : Nat → PyRequest → Except PyError Response)
    (u : Chars) (hu : isHttp u = true) :
    ∀ (k b : Nat) (done : List PyRequest),
      (∀ i, i < k →
        attemptTransient
          (net (done.length + i) (builtRequest u (some "GET".toList) [] none)) = true) →
      attemptLoop net u (b + k) done =
        attemptLoop net u b
          (done ++ List.replicate k (builtRequest u (some "GET".toList) [] none)) := by
  intro k
  induction k with
  | zero => intro b done _; simp
  | succ m ih =>
    intro b done hpre
    have hb : b + (m + 1) = (b + m) + 1 := by omega
    rw [hb]
    have h0 := hpre 0 (by omega)
    simp only [Nat.add_zero] at h0
    cases hx : net done.length (builtRequest u (some "GET".toList) [] none) with
    | ok r => rw [hx] at h0; simp [attemptTransient] at h0
    | error e =>
      rw [hx] at h0
      simp only [attemptTransient] at h0
      have hexec : _execute_request (net done.length) u (some "GET".toList) [] none
          = (.error e, [builtRequest u (some "GET".toList) [] none]) := by
        rw [execute_request_valid _ _ _ _ _ hu, hx]
      rw [attemptLoop_succ_error net u (b + m) done e _ hexec, if_pos h0]
      have ihx := ih b (done ++ [builtRequest u (some "GET".toList) [] none]) ?hp
      · rw [ihx]
        simp [List.replicate_succ, List.append_assoc]
      case hp =>
        intro i hi
        have := hpre (i + 1) (by omega)
        simpa [Nat.add_assoc, Nat.add_comm 1 i] using this

/-- Claim C2: during any attempt inside `stream`, exactly the two conditions
connection timeout (a `URLError` whose reason is a socket timeout) and
incomplete read are treated as transient and retried silently; every other
transport error, including non-timeout `URLError`s and HTTP error statuses,
propagates to the caller immediately and unmodified, without consuming a
retry (the trace ends at attempt `j + 1`) and before anything is yielded
(the raise happens inside the request loop, before the read phase). -/
theorem stream_error_classification (net : Nat → PyRequest → Except PyError Response)
    (url : Chars) (s n j : Nat)
    (hvalid : isHttp url = true) (hj : j ≤ n)
    (hpre : ∀ i, i < j → attemptTransient (net i (streamReq url s)) = true) :
    (∀ e, net j (streamReq url s) = .error e → e.isTransient = false →
      stream_request net url s n =
        .propagated e (List.replicate (j + 1) (streamReq url s))) ∧
    (attemptTransient (net j (streamReq url s)) = true → j < n →
      j + 2 ≤ (stream_request net url s n).requests.length) := by
  have hu : isHttp (streamRequestUrl url s) = true := by
    rw [isHttp_streamRequestUrl]; exact hvalid
  have hreq : builtRequest (streamRequestUrl url s) (some "GET".toList) [] none
      = streamReq url s := rfl
  have hsplit : 1 + n = (1 + n - j) + j := by omega
  have hskip : stream_request net url s n =
      attemptLoop net (streamRequestUrl url s) (1 + n - j)
        (List.replicate j (streamReq url s)) := by
    have h1 : stream_request net url s n
        = attemptLoop net (streamRequestUrl url s) ((1 + n - j) + j) [] := by
      unfold stream_request
      rw [← hsplit]
    rw [h1, attemptLoop_skip_transient net _ hu j (1 + n - j) [] ?hp]
    · rfl
    case hp =>
      intro i hi
      simpa [hreq] using hpre i hi
  constructor
  · intro e he het
    obtain ⟨m, hm⟩ : ∃ m, 1 + n - j = m + 1 := ⟨n - j, by omega⟩
    rw [hskip, hm]
    have hexec : _execute_request (net (List.replicate j (streamReq url s)).length)
        (streamRequestUrl url s) (some "GET".toList) [] none
        = (.error e, [streamReq url s]) := by
      rw [execute_request_valid _ _ _ _ _ hu, hreq, List.length_replicate, he]
    rw [attemptLoop_succ_error net _ m _ e _ hexec]
    rw [if_neg (by simp [het])]
    rw [← List.replicate_succ' j (streamReq url s)]
  · intro htr hjn
    obtain ⟨m, hm⟩ : ∃ m, 1 + n - j = m + 2 := ⟨n - j - 1, by omega⟩
    rw [hskip, hm]
    cases hx : net j (streamReq url s) with
    | ok r => rw [hx] at htr; simp [attemptTransient] at htr
    | error e =>
      rw [hx] at htr
      simp only [attemptTransient] at htr
      have hexec : _execute_request (net (List.replicate j (streamReq url s)).length)
          (streamRequestUrl url s) (some "GET".toList) [] none
          = (.error e, [streamReq url s]) := by
        rw [execute_request_valid _ _ _ _ _ hu, hreq, List.length_replicate, hx]
      rw [show m + 2 = (m + 1) + 1 by omega]
      rw [attemptLoop_succ_error net _ (m + 1) _ e _ hexec, if_pos htr]
      cases hy : net (List.replicate j (streamReq url s) ++ [streamReq url s]).length
          (streamReq url s) with
      | ok r =>
        have hexec2 : _execute_request
            (net (List.replicate j (streamReq url s) ++ [streamReq url s]).length)
            (streamRequestUrl url s) (some "GET".toList) [] none
            = (.ok r, [streamReq url s]) := by
          rw [execute_request_valid _ _ _ _ _ hu, hreq, hy]
        rw [attemptLoop_succ_ok net _ m _ r _ hexec2]
        simp [LoopResult.requests]
      | error e2 =>
        have hexec2 : _execute_request
            (net (List.replicate j (streamReq url s) ++ [streamReq url s]).length)
            (streamRequestUrl url s) (some "GET".toList) [] none
            = (.error e2, [streamReq url s]) := by
          rw [execute_request_valid _ _ _ _ _ hu, hreq, hy]
        rw [attemptLoop_succ_error net _ m _ e2 _ hexec2]
        by_cases he2 : e2.isTransient = true
        · rw [if_pos he2]
          calc j + 2 = (List.replicate j (streamReq url s) ++ [streamReq url s]
              ++ [streamReq url s]).length := by simp
            _ ≤ _ := attemptLoop_requests_le net _ m _
        · rw [if_neg he2]
          simp [LoopResult.requests]

/-- Witness for C2: an HTTP error status on the very first attempt
propagates at once, with exactly one request issued. -/
theorem stream_error_classification_witness :
    stream_request (fun _ _ => .error (.httpError 403)) ("http://a".toList) 0 0 =
      .propagated (.httpError 403)
        (List.replicate 1 (streamReq ("http://a".toList) 0)) := by
  have h := stream_error_classification (fun _ _ => .error (.httpError 403))
    ("http://a".toList) 0 0 0 (by decide) (le_refl 0)
    (fun i hi => absurd hi (Nat.not_lt_zero i))
  exact h.1 (.httpError 403) rfl rfl

theorem attemptLoop_requests_all (net : Nat → PyRequest → Except PyError Response)
    (u : Chars) :
    ∀ (b : Nat) (done : List PyRequest),
      (∀ q ∈ done, q = builtRequest u (some "GET".toList) [] none) →
      ∀ q ∈ (attemptLoop net u b done).requests,
        q = builtRequest u (some "GET".toList) [] none := by
  intro b
  induction b with
  | zero => intro done hdone; simpa [attemptLoop, LoopResult.requests] using hdone
  | succ m ih =>
    intro done hdone
    rcases hexec : _execute_request (net done.length) u (some "GET".toList) [] none
      with ⟨res, is⟩
    have his : ∀ q ∈ is, q = builtRequest u (some "GET".toList) [] none := by
      intro q hq
      have hall := execute_request_requests (net done.length) u (some "GET".toList) [] none q
      rw [hexec] at hall
      exact hall hq
    have hda : ∀ q ∈ done ++ is, q = builtRequest u (some "GET".toList) [] none := by
      intro q hq
      rcases List.mem_append.mp hq with h | h
      · exact hdone q h
      · exact his q h
    cases res with
    | ok r =>
      rw [attemptLoop_succ_ok net u m done r is hexec]
      intro q hq
      simp only [LoopResult.requests] at hq
      exact hda q hq
    | error e =>
      rw [attemptLoop_succ_error net u m done e is hexec]
      by_cases he : e.isTransient = true
      · rw [if_pos he]
        exact ih (done ++ is) hda
      · rw [if_neg he]
        intro q hq
        simp only [LoopResult.requests] at hq
        exact hda q hq

/-- Claim C3: every GET attempt of
`stream(url, timeout, maxRetries, startByteOffset)` issues the same request;
when `startByteOffset` is nonzero that request's URL carries the range
specification `&range=<startByteOffset>-99999999999` (bytes from the offset
to a practically unbounded upper bound, transmitted as the `range` query
parameter the server expects), and when `startByteOffset` is zero the URL is
sent unmodified, with no range specification. -/
theorem stream_range_request (net : Nat → PyRequest → Except PyError Response)
    (url : Chars) (s n : Nat) :
    (∀ q ∈ (stream_request net url s n).requests, q = streamReq url s) ∧
    (streamReq url s).method = some ("GET".toList) ∧
    (s ≠ 0 → (streamReq url s).url =
      url ++ ("&range=".toList ++ (Nat.repr s).toList ++ "-99999999999".toList)) ∧
    (s = 0 → (streamReq url s).url = url) := by
  have hurl : (streamReq url s).url = streamRequestUrl url s :=
    builtRequest_url _ _ _ _
  refine ⟨?_, rfl, ?_, ?_⟩
  · intro q hq
    exact attemptLoop_requests_all net (streamRequestUrl url s) (1 + n) []
      (by simp) q hq
  · intro hs0
    rw [hurl]
    unfold streamRequestUrl
    rw [if_neg hs0]
  · intro hs0
    rw [hurl]
    unfold streamRequestUrl
    simp [hs0]

/-- Witness for C3 at offsets 5 and 0 on a concrete URL. -/
theorem stream_range_request_witness :
    (streamReq ("http://a".toList) 5).url =
      "http://a".toList ++ ("&range=".toList ++ (Nat.repr 5).toList
        ++ "-99999999999".toList) ∧
    (streamReq ("http://a".toList) 0).url = "http://a".toList := by
  refine ⟨?_, ?_⟩
  · exact (stream_range_request (fun _ _ => .error .urlError)
      ("http://a".toList) 5 0).2.2.1 (by decide)
  · exact (stream_range_request (fun _ _ => .error .urlError)
      ("http://a".toList) 0 0).2.2.2 rfl

theorem flatten_flatten_eq (L : List (List (List Char))) :
    L.flatten.flatten = (L.map List.flatten).flatten := by
  induction L with
  | nil => rfl
  | cons a l ih =>
    simp only [List.flatten_cons, List.flatten_append, List.map_cons, ih]

/-- Claim C4: for every segmented payload whose segment 0 body carries a
line-delimited `Segment-Count: N` marker (as parsed by the code's scan of
the CRLF-split body), `seq_stream` yields first all chunks of segment 0,
then the chunks of segments `sq = 1` through `sq = N` in ascending order,
and the concatenation of everything yielded equals the concatenation of the
segment bodies 0 through N. -/
theorem seq_stream_reconstruction (segStream : Nat → List Chars) (N : Nat)
    (h : findSegmentCount (splitCRLF (segStream 0).flatten) = some N) :
    seq_stream segStream =
      .ok ((segStream 0) ++ ((List.range N).map (fun i => segStream (i + 1))).flatten) ∧
    ((segStream 0) ++ ((List.range N).map (fun i => segStream (i + 1))).flatten).flatten =
      ((List.range (N + 1)).map (fun i => (segStream i).flatten)).flatten := by
  constructor
  · unfold seq_stream
    dsimp only
    rw [h]
  · rw [List.flatten_append, flatten_flatten_eq, List.map_map]
    rw [List.range_succ_eq_map, List.map_cons, List.flatten_cons, List.map_map]
    rfl

/-- Witness for C4: a concrete three-segment payload with
`Segment-Count: 2` in segment 0 reassembles in order. -/
theorem seq_stream_reconstruction_witness :
    seq_stream (fun i => if i = 0 then ["AB\r\nSegment-Count: 2\r\nCD".toList]
      else [(Nat.repr i).toList]) =
      .ok ["AB\r\nSegment-Count: 2\r\nCD".toList, "1".toList, "2".toList] := by
  have h := seq_stream_reconstruction
    (fun i => if i = 0 then ["AB\r\nSegment-Count: 2\r\nCD".toList]
      else [(Nat.repr i).toList]) 2 (by decide)
  exact h.1.trans (by decide)

/-- Claim C5 (amended): when segment 0's body contains no
`Segment-Count: <N>` marker, `seq_stream` yields segment 0's chunks and then
raises `UnboundLocalError` reading the never-assigned `segment_count`
variable, instead of terminating normally. -/
theorem seq_stream_no_marker (segStream : Nat → List Chars)
    (h : findSegmentCount (splitCRLF (segStream 0).flatten) = none) :
    seq_stream segStream = .nameError (segStream 0) := by
  unfold seq_stream
  dsimp only
  rw [h]

/-- Counterexample to C5 as stated: on a marker-free segment 0 the generator
does not terminate normally after yielding segment 0's chunks — it ends in
the unbound-variable raise, since `segment_count` has no default. -/
theorem seq_stream_no_marker_cex :
    seq_stream (fun i => if i = 0 then ["abc".toList] else []) =
      .nameError ["abc".toList] ∧
    (seq_stream (fun i => if i = 0 then ["abc".toList] else [])).isOk = false := by
  constructor <;> decide

/-- Witness for the amended C5 on a concrete marker-free payload. -/
theorem seq_stream_no_marker_witness :
    seq_stream (fun _ => ["hello".toList]) = .nameError ["hello".toList] :=
  seq_stream_no_marker (fun _ => ["hello".toList]) (by decide)

theorem splitAtColon_eq (u : Chars) :
    ∀ pre rest, splitAtColon u = some (pre, rest) → u = pre ++ ':' :: rest := by
  induction u with
  | nil => intro pre rest h; simp [splitAtColon] at h
  | cons c cs ih =>
    intro pre rest h
    by_cases hc : c = ':'
    · rw [hc] at h ⊢
      simp [splitAtColon] at h
      rw [h.1, h.2]
      rfl
    · simp only [splitAtColon, if_neg hc] at h
      cases hs : splitAtColon cs with
      | none => rw [hs] at h; simp at h
      | some p =>
        rw [hs] at h
        rcases p with ⟨a, b⟩
        simp at h
        rw [← h.1, ← h.2]
        rw [ih a b hs]
        rfl

theorem splitScheme_cases (u : Chars) :
    ((splitScheme u).1 = [] ∧ (splitScheme u).2 = u) ∨
    (∃ pre rest, u = pre ++ ':' :: rest ∧ pre ≠ [] ∧
      (splitScheme u).1 = pre.map Char.toLower ∧ (splitScheme u).2 = rest) := by
  rcases h : splitAtColon u with _ | ⟨pre, rest⟩
  · left; simp [splitScheme, h]
  · rcases pre with _ | ⟨c, pre2⟩
    · left; simp [splitScheme, h]
    · by_cases hv : (c.isAlpha && (c :: pre2).all schemeCharOK) = true
      · right
        have hs1 : splitScheme u = ((c :: pre2).map Char.toLower, rest) := by
          unfold splitScheme
          rw [h]
          dsimp only
          rw [if_pos hv]
        exact ⟨c :: pre2, rest, splitAtColon_eq u _ _ h, by simp,
          by rw [hs1], by rw [hs1]⟩
      · left
        have hs1 : splitScheme u = ([], u) := by
          unfold splitScheme
          rw [h]
          dsimp only
          rw [if_neg hv]
        rw [hs1]
        exact ⟨rfl, rfl⟩

theorem toLower_toLower (c : Char) : c.toLower.toLower = c.toLower := by
  have hv : ∀ m : Nat, 65 ≤ m → m ≤ 90 → (Char.ofNat (m + 32)).toNat = m + 32 := by
    intro m h1 h2
    interval_cases m <;> decide
  by_cases h : c.toNat ≥ 65 ∧ c.toNat ≤ 90
  · have h1 : c.toLower = Char.ofNat (c.toNat + 32) := by
      show (if c.toNat ≥ 65 ∧ c.toNat ≤ 90 then Char.ofNat (c.toNat + 32) else c) = _
      rw [if_pos h]
    have h2 : (Char.ofNat (c.toNat + 32)).toLower = Char.ofNat (c.toNat + 32) := by
      show (if (Char.ofNat (c.toNat + 32)).toNat ≥ 65 ∧ (Char.ofNat (c.toNat + 32)).toNat ≤ 90
        then Char.ofNat ((Char.ofNat (c.toNat + 32)).toNat + 32)
        else Char.ofNat (c.toNat + 32)) = _
      rw [hv c.toNat h.1 h.2]
      rw [if_neg (by omega)]
    rw [h1, h2]
  · have h1 : c.toLower = c := by
      show (if c.toNat ≥ 65 ∧ c.toNat ≤ 90 then Char.ofNat (c.toNat + 32) else c) = _
      rw [if_neg h]
    rw [h1, h1]

theorem map_toLower_idem (l : Chars) :
    (l.map Char.toLower).map Char.toLower = l.map Char.toLower := by
  induction l with
  | nil => rfl
  | cons c cs ih => simp only [List.map_cons, toLower_toLower, ih]

theorem urlsplit_scheme (u : Chars) : (urlsplit u).scheme = (splitScheme u).1 := rfl

theorem urlsplit_scheme_lower (u : Chars) :
    ((urlsplit u).scheme).map Char.toLower = (urlsplit u).scheme := by
  rw [urlsplit_scheme]
  rcases splitScheme_cases u with ⟨h1, _⟩ | ⟨pre, rest, _, _, h1, _⟩
  · rw [h1]; rfl
  · rw [h1, map_toLower_idem]

theorem buildSeqUrl_shape (u : Chars) (sq : Nat) :
    ∃ w, buildSeqUrl u sq = (urlsplit u).scheme ++ ':' :: w :=
  ⟨_, rfl⟩

theorem isHttp_buildSeqUrl (u : Chars) (sq : Nat) :
    isHttp (buildSeqUrl u sq) = httpL.isPrefixOf (urlsplit u).scheme := by
  obtain ⟨w, hw⟩ := buildSeqUrl_shape u sq
  rw [hw]
  unfold isHttp
  rw [List.map_append, List.map_cons]
  rw [httpPrefixAppendBlocker _ _ _ (by decide) (by decide) (by decide)]
  rw [urlsplit_scheme_lower]

theorem isHttp_buildSeqUrl_of_scheme (u : Chars) (sq : Nat)
    (h : (urlsplit u).scheme ≠ []) :
    isHttp (buildSeqUrl u sq) = isHttp u := by
  rw [isHttp_buildSeqUrl]
  rw [urlsplit_scheme] at h ⊢
  rcases splitScheme_cases u with ⟨h1, _⟩ | ⟨pre, rest, hu, hpre, h1, _⟩
  · exact absurd h1 h
  · rw [h1, hu]
    unfold isHttp
    rw [List.map_append, List.map_cons,
        httpPrefixAppendBlocker _ _ _ (by decide) (by decide) (by decide)]

theorem isHttp_buildSeqUrl_false (u : Chars) (sq : Nat) (h : isHttp u = false) :
    isHttp (buildSeqUrl u sq) = false := by
  by_cases hs : (urlsplit u).scheme = []
  · rw [isHttp_buildSeqUrl, hs]; rfl
  · rw [isHttp_buildSeqUrl_of_scheme u sq hs]; exact h

theorem foldCount_some (ls : List Chars) :
    ∀ (a d : Nat),
      (ls.foldl (fun acc line =>
        match searchSegCountLine line with
        | some n => some n
        | none => acc) (some a)).getD d =
      ls.foldl (fun acc line =>
        match searchSegCountLine line with
        | some n => n
        | none => acc) a := by
  induction ls with
  | nil => intro a d; rfl
  | cons l ls ih =>
    intro a d
    cases h : searchSegCountLine l with
    | none => simp only [List.foldl_cons, h]; exact ih a d
    | some n => simp only [List.foldl_cons, h]; exact ih n d

theorem foldCount_none (ls : List Chars) :
    ∀ d : Nat,
      (ls.foldl (fun acc line =>
        match searchSegCountLine line with
        | some n => some n
        | none => acc) none).getD d =
      ls.foldl (fun acc line =>
        match searchSegCountLine line with
        | some n => n
        | none => acc) d := by
  induction ls with
  | nil => intro d; rfl
  | cons l ls ih =>
    intro d
    cases h : searchSegCountLine l with
    | none => simp only [List.foldl_cons, h]; exact ih d
    | some n => simp only [List.foldl_cons, h]; exact foldCount_some ls n d

theorem segCountOf_eq (body : Chars) :
    segCountOf body = (findSegmentCount (splitCRLF body)).getD 0 := by
  unfold segCountOf findSegmentCount
  exact (foldCount_none (splitCRLF body) 0).symm

theorem range_succ_sum_shift (f : Nat → Nat) (first m : Nat) :
    f first + ((List.range m).map (fun k => f (first + 1 + k))).sum =
    ((List.range (m + 1)).map (fun k => f (first + k))).sum := by
  rw [List.range_succ_eq_map, List.map_cons, List.sum_cons, List.map_map]
  have h1 : f (first + 0) = f first := by norm_num
  have h2 : (List.range m).map ((fun k => f (first + k)) ∘ Nat.succ)
      = (List.range m).map (fun k => f (first + 1 + k)) := by
    apply List.map_congr_left
    intro k _
    simp only [Function.comp]
    congr 1
    omega
  rw [h1, h2]

theorem range_succ_map_shift {α : Type} (g : Nat → α) (first m : Nat) :
    g first :: (List.range m).map (fun k => g (first + 1 + k)) =
    (List.range (m + 1)).map (fun k => g (first + k)) := by
  rw [List.range_succ_eq_map, List.map_cons, List.map_map]
  have h1 : g (first + 0) = g first := by norm_num
  have h2 : (List.range m).map ((fun k => g (first + k)) ∘ Nat.succ)
      = (List.range m).map (fun k => g (first + 1 + k)) := by
    apply List.map_congr_left
    intro k _
    simp only [Function.comp]
    congr 1
    omega
  rw [h1, h2]

theorem headSum_ok (net : Nat → PyRequest → Except PyError Response) (url : Chars)
    (L : Nat → Nat) :
    ∀ (rem first acc : Nat) (issued : List PyRequest),
      (∀ i, first ≤ i → i < first + rem →
        headContentLength (net i) (buildSeqUrl url i) = (.ok (L i), [seqHeadReq url i])) →
      headSum net url first acc issued rem =
        (.ok (acc + ((List.range rem).map (fun k => L (first + k))).sum),
         issued ++ (List.range rem).map (fun k => seqHeadReq url (first + k))) := by
  intro rem
  induction rem with
  | zero => intro first acc issued _; simp [headSum]
  | succ m ih =>
    intro first acc issued hh
    have h0 := hh first (le_refl first) (by omega)
    simp only [headSum]
    rw [h0]
    dsimp only
    rw [ih (first + 1) (acc + L first) (issued ++ [seqHeadReq url first]) ?hh2]
    · simp only [Prod.mk.injEq]
      constructor
      · rw [Nat.add_assoc, range_succ_sum_shift L first m]
      · rw [List.append_assoc, List.singleton_append, range_succ_map_shift]
    case hh2 =>
      intro i h1 h2
      exact hh i (by omega) (by omega)

/-- Claim C6 (amended): `seq_filesize(url)` returns the byte length of
segment 0's body plus the sum of the HEAD-derived Content-Length values of
segments 1..N, where N is the count parsed from the `Segment-Count: <N>`
marker in segment 0; and it raises the regex-match error exactly when the
parsed count is 0 — that is, when no marker is found or when the last marker
found reads `Segment-Count: 0`. -/
theorem seq_filesize_spec (net : Nat → PyRequest → Except PyError Response)
    (url : Chars) (r : Response) (N : Nat) (L : Nat → Nat)
    (hvalid : isHttp url = true) (hsch : (urlsplit url).scheme ≠ [])
    (hseg0 : net 0 (builtRequest (buildSeqUrl url 0) (some "GET".toList) [] none) = .ok r) :
    (findSegmentCount (splitCRLF r.body) = some N → N ≠ 0 →
      (∀ i, 1 ≤ i → i ≤ N →
        headContentLength (net i) (buildSeqUrl url i) = (.ok (L i), [seqHeadReq url i])) →
      seq_filesize_req net url =
        (.ok (r.body.length + ((List.range N).map (fun k => L (1 + k))).sum),
         builtRequest (buildSeqUrl url 0) (some "GET".toList) [] none
           :: (List.range N).map (fun k => seqHeadReq url (1 + k)))) ∧
    ((findSegmentCount (splitCRLF r.body)).getD 0 = 0 →
      seq_filesize_req net url =
        (.error .regexMatchError,
         [builtRequest (buildSeqUrl url 0) (some "GET".toList) [] none])) := by
  have hbu : isHttp (buildSeqUrl url 0) = true := by
    rw [isHttp_buildSeqUrl_of_scheme url 0 hsch]; exact hvalid
  have hexec : _execute_request (net 0) (buildSeqUrl url 0) (some "GET".toList) [] none
      = (.ok r, [builtRequest (buildSeqUrl url 0) (some "GET".toList) [] none]) := by
    rw [execute_request_valid _ _ _ _ _ hbu, hseg0]
  constructor
  · intro hc hN hheads
    unfold seq_filesize_req
    rw [hexec]
    dsimp only
    rw [segCountOf_eq, hc]
    simp only [Option.getD_some]
    rw [if_neg hN]
    rw [headSum_ok net url L N 1 r.body.length _ ?hh]
    · rw [List.singleton_append]
    case hh =>
      intro i h1 h2
      exact hheads i h1 (by omega)
  · intro h0
    unfold seq_filesize_req
    rw [hexec]
    dsimp only
    rw [segCountOf_eq, h0]
    simp

/-- Counterexample to C6 as stated: a segment 0 whose body reads
`Segment-Count: 0` does contain a parsable segment count, yet
`seq_filesize` raises the regex-match error anyway, so the error is not
raised exactly when no count is found. -/
theorem seq_filesize_zero_marker_cex :
    seq_filesize_req (fun _ _ => .ok ⟨"Segment-Count: 0".toList, []⟩) ("http://a".toList)
      = (.error .regexMatchError,
         [builtRequest (buildSeqUrl ("http://a".toList) 0) (some "GET".toList) [] none]) ∧
    findSegmentCount (splitCRLF ("Segment-Count: 0".toList)) = some 0 := by
  constructor <;> decide

/-- Witness for the amended C6: segment 0 declares `Segment-Count: 2` and
two HEAD probes of 7 bytes each are added to the 23-byte body. -/
theorem seq_filesize_spec_witness :
    seq_filesize_req
      (fun i _ => if i = 0 then .ok ⟨"hey\r\nSegment-Count: 2\r\n".toList, []⟩
        else .ok ⟨[], [("Content-Length".toList, "7".toList)]⟩)
      ("http://a".toList) =
      (.ok 37,
       [builtRequest (buildSeqUrl ("http://a".toList) 0) (some "GET".toList) [] none,
        seqHeadReq ("http://a".toList) 1, seqHeadReq ("http://a".toList) 2]) := by
  have h := seq_filesize_spec
    (fun i _ => if i = 0 then .ok ⟨"hey\r\nSegment-Count: 2\r\n".toList, []⟩
      else .ok ⟨[], [("Content-Length".toList, "7".toList)]⟩)
    ("http://a".toList) ⟨"hey\r\nSegment-Count: 2\r\n".toList, []⟩ 2 (fun _ => 7)
    (by decide) (by decide) rfl
  have h1 := h.1 (by decide) (by decide)
    (fun i hi1 hi2 => by interval_cases i <;> decide)
  exact h1.trans (by decide)

/-- Claim C7 (amended): for every url whose lowercased text does not start
with "http" (for example "not-a-url"), every public operation that issues a
request — get, post, stream, seqStream, head, filesize, seqFilesize —
raises the invalid-request `ValueError` immediately, with an empty request
trace (no network call) and without retrying: `stream` propagates on its
first loop iteration for any retry budget, and the first action of
`seq_stream`, the `stream` call on its rewritten `sq=0` URL, does the
same. -/
theorem invalid_url_rejected (net : Nat → PyRequest → Except PyError Response)
    (url : Chars) (hs : List (Chars × Chars)) (d : Option Chars) (s n : Nat)
    (h : isHttp url = false) :
    get_req net url hs = (.error .invalidURL, []) ∧
    post_req net url hs d = (.error .invalidURL, []) ∧
    stream_request net url s n = .propagated .invalidURL [] ∧
    stream_request net (buildSeqUrl url 0) 0 n = .propagated .invalidURL [] ∧
    head_req (net 0) url = (.error .invalidURL, []) ∧
    filesize_req net url = (.error .invalidURL, []) ∧
    seq_filesize_req net url = (.error .invalidURL, []) := by
  have hstream : ∀ (u : Chars), isHttp u = false → ∀ (s2 n2 : Nat),
      stream_request net u s2 n2 = .propagated .invalidURL [] := by
    intro u hu s2 n2
    unfold stream_request
    have hu2 : isHttp (streamRequestUrl u s2) = false := by
      rw [isHttp_streamRequestUrl]; exact hu
    rw [Nat.add_comm 1 n2]
    exact attemptLoop_invalid net _ n2 [] hu2
  refine ⟨?_, ?_, hstream url h s n,
    hstream _ (isHttp_buildSeqUrl_false url 0 h) 0 n, ?_, ?_, ?_⟩
  · unfold get_req
    rw [execute_request_invalid _ _ _ _ _ h]
  · unfold post_req
    rw [execute_request_invalid _ _ _ _ _ h]
  · unfold head_req
    rw [execute_request_invalid _ _ _ _ _ h]
  · unfold filesize_req headContentLength head_req
    rw [execute_request_invalid _ _ _ _ _ h]
  · unfold seq_filesize_req
    rw [execute_request_invalid _ _ _ _ _ (isHttp_buildSeqUrl_false url 0 h)]

/-- Counterexample to C7 as stated: "httpx://a" has scheme "httpx" — not
recognized as HTTP or HTTPS — yet `get` raises no invalid-request error:
the lowercase-prefix check accepts the URL and hands it to `urlopen`, so a
network call happens. -/
theorem invalid_url_scheme_cex :
    (urlsplit ("httpx://a".toList)).scheme = "httpx".toList ∧
    get_req (fun _ _ => .ok ⟨[], []⟩) ("httpx://a".toList) []
      = (.ok [], [builtRequest ("httpx://a".toList) none [] none]) ∧
    (get_req (fun _ _ => .ok ⟨[], []⟩) ("httpx://a".toList) []).2.length = 1 := by
  exact ⟨by decide, by decide, by decide⟩

/-- Witness for the amended C7 at the concrete input "not-a-url". -/
theorem invalid_url_rejected_witness :
    get_req (fun _ _ => .ok ⟨[], []⟩) ("not-a-url".toList) []
      = (.error .invalidURL, []) ∧
    post_req (fun _ _ => .ok ⟨[], []⟩) ("not-a-url".toList) [] none
      = (.error .invalidURL, []) ∧
    stream_request (fun _ _ => .ok ⟨[], []⟩) ("not-a-url".toList) 0 2
      = .propagated .invalidURL [] ∧
    stream_request (fun _ _ => .ok ⟨[], []⟩) (buildSeqUrl ("not-a-url".toList) 0) 0 2
      = .propagated .invalidURL [] ∧
    head_req (fun _ => .ok ⟨[], []⟩) ("not-a-url".toList)
      = (.error .invalidURL, []) ∧
    filesize_req (fun _ _ => .ok ⟨[], []⟩) ("not-a-url".toList)
      = (.error .invalidURL, []) ∧
    seq_filesize_req (fun _ _ => .ok ⟨[], []⟩) ("not-a-url".toList)
      = (.error .invalidURL, []) :=
  invalid_url_rejected (fun _ _ => .ok ⟨[], []⟩) ("not-a-url".toList) [] none 0 2
    (by decide)

/-- Claim C8: whenever the correlated in-flight URL of the current execution
context indicates the resolver probe endpoint (it contains the DoH lookup
path "/resolve"), the patched address resolution returns the fronting
provider's fixed hardcoded address 216.239.36.36 with port 443 in place of
the platform resolver's answer — never the platform's direct answer — and
with no DNS round trip: the conclusion holds for every DoH oracle, which is
never consulted on this branch. -/
theorem resolver_probe_override (get_dns_ip split_redirector_host : Chars → Chars)
    (res : List AddrInfo) (r0 : AddrInfo) (rest : List AddrInfo) (url : Chars)
    (hres : res = r0 :: rest) (hurl : containsSub ("/resolve".toList) url = true) :
    _patched_getaddrinfo get_dns_ip split_redirector_host res (some url)
      = some [{ r0 with sockaddr := ("216.239.36.36".toList, 443) }] ∧
    ({ r0 with sockaddr := ("216.239.36.36".toList, 443) } : AddrInfo).sockaddr
      = ("216.239.36.36".toList, 443) := by
  have hne : url ≠ [] := by
    rintro rfl
    exact absurd hurl (by decide)
  constructor
  · unfold _patched_getaddrinfo
    dsimp only
    rw [if_neg hne, if_pos hurl, hres]
    rfl
  · rfl

/-- Witness for C8 at a concrete probe URL and platform answer. -/
theorem resolver_probe_override_witness :
    _patched_getaddrinfo (fun _ => []) (fun _ => [])
      [⟨2, 1, 6, [], ("93.184.216.34".toList, 443)⟩]
      (some ("https://www.google.com/resolve?name=example.com".toList))
      = some [⟨2, 1, 6, [], ("216.239.36.36".toList, 443)⟩] := by
  have h := resolver_probe_override (fun _ => []) (fun _ => [])
    [⟨2, 1, 6, [], ("93.184.216.34".toList, 443)⟩]
    ⟨2, 1, 6, [], ("93.184.216.34".toList, 443)⟩ []
    ("https://www.google.com/resolve?name=example.com".toList) rfl (by decide)
  exact h.1.trans (by decide)

theorem dnsPass_true_stays (answers : List DnsEntry) :
    ∀ ip, (dnsPass answers ip true).2 = true := by
  induction answers with
  | nil => intro ip; rfl
  | cons a rest ih =>
    intro ip
    unfold dnsPass
    by_cases h : ip = a.name
    · rw [if_pos h]; exact ih a.data
    · rw [if_neg h]; exact ih ip

theorem dnsPass_no_match_fix (answers : List DnsEntry) :
    ∀ ip, (dnsPass answers ip false).2 = false → (dnsPass answers ip false).1 = ip := by
  induction answers with
  | nil => intro ip _; rfl
  | cons a rest ih =>
    intro ip h
    unfold dnsPass at h ⊢
    by_cases hm : ip = a.name
    · rw [if_pos hm] at h
      rw [dnsPass_true_stays rest a.data] at h
      simp at h
    · rw [if_neg hm] at h ⊢
      exact ih ip h

theorem dnsPassIter_fix (answers : List DnsEntry) (q0 : Chars)
    (h : (dnsPass answers q0 false).2 = false) :
    ∀ m, dnsPassIter answers q0 m = q0 := by
  intro m
  induction m with
  | zero => rfl
  | succ k ih =>
    unfold dnsPassIter
    rw [ih]
    exact dnsPass_no_match_fix answers q0 h

theorem dnsPassIter_shift (answers : List DnsEntry) (q0 : Chars) :
    ∀ k, dnsPassIter answers (dnsPass answers q0 false).1 k
      = dnsPassIter answers q0 (k + 1) := by
  intro k
  induction k with
  | zero => rfl
  | succ m ih =>
    show (dnsPass answers (dnsPassIter answers (dnsPass answers q0 false).1 m) false).1 = _
    rw [ih]
    rfl

theorem dnsLoop_reaches (answers : List DnsEntry) :
    ∀ (k : Nat) (q0 : Chars) (fuel : Nat),
      (dnsPass answers (dnsPassIter answers q0 k) false).2 = false →
      k < fuel →
      dnsLoop answers fuel q0 = some (dnsPassIter answers q0 k) := by
  intro k
  induction k with
  | zero =>
    intro q0 fuel hk hf
    have hk0 : (dnsPass answers q0 false).2 = false := hk
    obtain ⟨f, rfl⟩ : ∃ f, fuel = f + 1 := ⟨fuel - 1, by omega⟩
    unfold dnsLoop
    dsimp only
    rw [if_neg (by rw [hk0]; simp)]
    rw [dnsPass_no_match_fix answers q0 hk0]
    rfl
  | succ m ih =>
    intro q0 fuel hk hf
    obtain ⟨f, rfl⟩ : ∃ f, fuel = f + 1 := ⟨fuel - 1, by omega⟩
    unfold dnsLoop
    dsimp only
    by_cases hp : (dnsPass answers q0 false).2 = true
    · rw [if_pos hp]
      have hk2 : (dnsPass answers
          (dnsPassIter answers (dnsPass answers q0 false).1 m) false).2 = false := by
        rw [dnsPassIter_shift]
        exact hk
      rw [ih (dnsPass answers q0 false).1 f hk2 (by omega)]
      rw [dnsPassIter_shift]
    · rw [if_neg hp]
      have hp2 : (dnsPass answers q0 false).2 = false := by simpa using hp
      rw [dnsPass_no_match_fix answers q0 hp2]
      rw [dnsPassIter_fix answers q0 hp2 (m + 1)]

/-- Claim C9 (amended): for every well-formed DoH answer with a nonempty
Question list, if the iterated replacement passes reach a fixed point — some
pass over the Answer list makes no replacement — then the chain-following
loop terminates, returning the final working value obtained from
Question[0].name by repeatedly replacing it with the data of matching Answer
entries; however, a well-formed answer containing a CNAME-style cycle makes
the loop run forever (see the counterexample), so termination does not hold
for every well-formed answer. -/
theorem dns_chain_resolution (j : DnsAnswer) (q0 : Chars) (qs : List Chars)
    (k fuel : Nat) (hq : j.question = q0 :: qs)
    (hk : (dnsPass j.answer (dnsPassIter j.answer q0 k) false).2 = false)
    (hf : k < fuel) :
    _read_ip_from_dns_answer j fuel = some (dnsPassIter j.answer q0 k) := by
  unfold _read_ip_from_dns_answer
  rw [hq]
  exact dnsLoop_reaches j.answer k q0 fuel hk hf

/-- Counterexample to C9 as stated: the well-formed answer with the
two-entry cycle a -> b -> a makes the chain-following loop run forever; no
fuel suffices. -/
theorem dns_answer_cycle_cex :
    DnsDiverges ⟨["a".toList],
      [⟨"a".toList, "b".toList⟩, ⟨"b".toList, "a".toList⟩]⟩ := by
  intro fuel
  have hpass : dnsPass [⟨"a".toList, "b".toList⟩, ⟨"b".toList, "a".toList⟩]
      ("a".toList) false = ("a".toList, true) := by decide
  have hstep : ∀ g, dnsLoop [⟨"a".toList, "b".toList⟩, ⟨"b".toList, "a".toList⟩]
      (g + 1) ("a".toList)
      = dnsLoop [⟨"a".toList, "b".toList⟩, ⟨"b".toList, "a".toList⟩] g ("a".toList) := by
    intro g
    conv_lhs => rw [dnsLoop]
    rw [hpass]
    simp
  induction fuel with
  | zero => rfl
  | succ f ih =>
    show dnsLoop [⟨"a".toList, "b".toList⟩, ⟨"b".toList, "a".toList⟩]
      (f + 1) ("a".toList) = none
    rw [hstep f]
    exact ih

/-- Witness for the amended C9: the chain x -> y -> 1.2.3.4 reaches a fixed
point after one pass and resolves to the final address. -/
theorem dns_chain_resolution_witness :
    _read_ip_from_dns_answer
      ⟨["x".toList], [⟨"x".toList, "y".toList⟩, ⟨"y".toList, "1.2.3.4".toList⟩]⟩ 2
      = some ("1.2.3.4".toList) := by
  have h := dns_chain_resolution
    ⟨["x".toList], [⟨"x".toList, "y".toList⟩, ⟨"y".toList, "1.2.3.4".toList⟩]⟩
    ("x".toList) [] 1 2 rfl (by decide) (by decide)
  exact h.trans (by decide)

theorem dlookup_dictInsert (k v : Chars) :
    ∀ l, dlookup k (dictInsert k v l) = some v := by
  intro l
  induction l with
  | nil => simp [dictInsert, dlookup]
  | cons p rest ih =>
    rcases p with ⟨k2, v2⟩
    by_cases h : k = k2
    · simp [dictInsert, dlookup, h]
    · simp [dictInsert, dlookup, h, ih]

/-- Claim C10 (amended): `post` mutates the caller-supplied headers mapping
in place — after any call the caller's mapping contains the entry
Content-Type: application/json — and the mapping's contents change in every
call in which it did not already hold exactly that entry. (When the entry
was already present, the update writes the same value back and the contents
are unchanged.) -/
theorem post_mutates_caller_headers (hs : List (Chars × Chars)) :
    dlookup ("Content-Type".toList) (post_headers_after hs)
      = some ("application/json".toList) ∧
    (dlookup ("Content-Type".toList) hs ≠ some ("application/json".toList) →
      post_headers_after hs ≠ hs) := by
  constructor
  · exact dlookup_dictInsert _ _ hs
  · intro hne heq
    exact hne (by rw [← heq]; exact dlookup_dictInsert _ _ hs)

/-- Counterexample to C10 as stated: a caller mapping that already holds
exactly Content-Type: application/json is left with unchanged contents (the
in-place update writes the same value back), so the input mapping is not
changed by every call. -/
theorem post_headers_unchanged_cex :
    post_headers_after [("Content-Type".toList, "application/json".toList)]
      = [("Content-Type".toList, "application/json".toList)] := by
  decide

/-- Witness for the amended C10: an empty caller mapping gains the entry and
is changed. -/
theorem post_mutates_caller_headers_witness :
    dlookup ("Content-Type".toList) (post_headers_after [])
      = some ("application/json".toList) ∧
    post_headers_after [] ≠ [] := by
  have h := post_mutates_caller_headers []
  exact ⟨h.1, h.2 (by decide)⟩
